import Mathlib

/-!
Shallow embedding of the ranking / variation utilities of the alts-digital
repository (bookmakers EDA pipeline and copa-america match statistics),
together with theorems checking the specification's claims against it.

DataFrames are embedded as lists of records, one structure per table shape.
Numeric columns are `Int` (raw metrics) or `Rat` (ratio/percentage columns);
float division-by-zero semantics, where relevant, is modelled explicitly by
the `PFloat` type.  pandas `rank(method="min", ascending=False)`,
`nlargest`/`nsmallest` (keep="first") and stable sorts are modelled with
`List.insertionSort`, which is a stable sort.
-/

namespace AltsDigital

open List

/-- The four month/period columns kept by `preprocess_dataframe`
(`months = ["may", "june", "july", "august"]`). -/
inductive Month
  | may
  | june
  | july
  | august
deriving DecidableEq

/-- The period list `months` of `data_processing.preprocess_dataframe`. -/
def monthsList : List Month := [Month.may, Month.june, Month.july, Month.august]

/-- A row of the raw bookmakers table after renaming and `to_numeric`
coercion: each month holds `some v` for a numeric cell and `none` for a
null/NaN cell (`errors="coerce"`). -/
structure RawRow where
  betting_house : String
  may : Option Int
  june : Option Int
  july : Option Int
  august : Option Int
deriving DecidableEq

/-- Metric cell of a raw row for a given month column. -/
def RawRow.metric (r : RawRow) : Month → Option Int
  | Month.may => r.may
  | Month.june => r.june
  | Month.july => r.july
  | Month.august => r.august

/-- `df.dropna(subset=months)` : keep rows with no null month cell. -/
def dropnaMonths (t : List RawRow) : List RawRow :=
  t.filter (fun r => monthsList.all (fun m => (r.metric m).isSome))

/-- `df[(df[months] > 0).all(axis=1)]` : keep rows whose month cells are all
strictly positive (a NaN cell compares as not `> 0`, modelled by `getD 0`). -/
def positiveMonths (t : List RawRow) : List RawRow :=
  t.filter (fun r => monthsList.all (fun m => decide (0 < (r.metric m).getD 0)))

/-- The validity filter of `preprocess_dataframe` (lines 34-35): drop rows
with a null month cell, then keep rows with all month cells `> 0`. -/
def filter_valid (t : List RawRow) : List RawRow :=
  positiveMonths (dropnaMonths t)

/-- A row known to have numeric month cells: the shape of the table after
`filter_valid`, with cells extracted. -/
structure ValidRow where
  betting_house : String
  may : Int
  june : Int
  july : Int
  august : Int
deriving DecidableEq

/-- Metric of a valid row in a given month. -/
def ValidRow.metricOf (r : ValidRow) : Month → Int
  | Month.may => r.may
  | Month.june => r.june
  | Month.july => r.july
  | Month.august => r.august

/-- Cell extraction after the validity filter (all cells are `some`). -/
def toValid (r : RawRow) : ValidRow :=
  { betting_house := r.betting_house
    may := r.may.getD 0
    june := r.june.getD 0
    july := r.july.getD 0
    august := r.august.getD 0 }

/-- pandas `Series.rank(method="min", ascending=False).astype(int)` value of
entry `v` within column `vals`: one plus the number of strictly greater
entries ("competition" / minimum tie-break ranking). -/
def rankMin (vals : List Int) (v : Int) : Int :=
  1 + (vals.countP (fun x => decide (v < x)) : Int)

/-- A row of the table produced by `preprocess_dataframe`: month metrics,
per-month ranks, absolute month-over-month rank changes, and the May→August
percentage growth. -/
structure ProcRow where
  betting_house : String
  may : Int
  june : Int
  july : Int
  august : Int
  rank_may : Int
  rank_june : Int
  rank_july : Int
  rank_august : Int
  rank_change_may_june : Int
  rank_change_june_july : Int
  rank_change_july_august : Int
  growth_percentage : Rat
deriving DecidableEq

/-- Builds one processed row from a valid row and the four month columns of
the filtered table (the rank of a row is computed against its own column). -/
def mkProc (mays junes julys augusts : List Int) (r : ValidRow) : ProcRow :=
  let rank_may := rankMin mays r.may
  let rank_june := rankMin junes r.june
  let rank_july := rankMin julys r.july
  let rank_august := rankMin augusts r.august
  { betting_house := r.betting_house
    may := r.may
    june := r.june
    july := r.july
    august := r.august
    rank_may := rank_may
    rank_june := rank_june
    rank_july := rank_july
    rank_august := rank_august
    rank_change_may_june := |rank_june - rank_may|
    rank_change_june_july := |rank_july - rank_june|
    rank_change_july_august := |rank_august - rank_july|
    growth_percentage := ((r.august : Rat) - (r.may : Rat)) / (r.may : Rat) * 100 }

/-- `data_processing.preprocess_dataframe`: validity filter, per-month
min-tie-break descending ranks, absolute rank changes, percentage growth.
(The column renaming and the drop of the March/April columns are presentation
plumbing and are modelled by the `RawRow` shape itself.) -/
def preprocess_dataframe (t : List RawRow) : List ProcRow :=
  let v := (filter_valid t).map toValid
  v.map (mkProc (v.map ValidRow.may) (v.map ValidRow.june)
    (v.map ValidRow.july) (v.map ValidRow.august))

/-- Month metric column selector of a processed row. -/
def ProcRow.metricOf (r : ProcRow) : Month → Int
  | Month.may => r.may
  | Month.june => r.june
  | Month.july => r.july
  | Month.august => r.august

/-- Month rank column selector of a processed row. -/
def ProcRow.rankOf (r : ProcRow) : Month → Int
  | Month.may => r.rank_may
  | Month.june => r.rank_june
  | Month.july => r.rank_july
  | Month.august => r.rank_august

/-- Selects the column passed to `rankMin` for a given month. -/
def colOf : Month → List Int → List Int → List Int → List Int → List Int
  | Month.may, a, _, _, _ => a
  | Month.june, _, b, _, _ => b
  | Month.july, _, _, c, _ => c
  | Month.august, _, _, _, d => d

theorem metricOf_mkProc (a b c d : List Int) (r : ValidRow) (m : Month) :
    (mkProc a b c d r).metricOf m = r.metricOf m := by
  cases m <;> rfl

theorem rankOf_mkProc (a b c d : List Int) (r : ValidRow) (m : Month) :
    (mkProc a b c d r).rankOf m = rankMin (colOf m a b c d) (r.metricOf m) := by
  cases m <;> rfl

theorem colOf_map (v : List ValidRow) (m : Month) :
    colOf m (v.map ValidRow.may) (v.map ValidRow.june) (v.map ValidRow.july)
      (v.map ValidRow.august) = v.map (fun r => r.metricOf m) := by
  cases m <;> rfl

/-- A Bool test for the spec's "valid (non-null, strictly positive) metric in
period m". -/
def validInPeriod (m : Month) (r : RawRow) : Bool :=
  (r.metric m).isSome && decide (0 < (r.metric m).getD 0)

theorem mem_filter_valid (t : List RawRow) (r : RawRow) :
    r ∈ filter_valid t ↔ r ∈ t ∧ ∀ m : Month, ∃ v : Int, r.metric m = some v ∧ 0 < v := by
  unfold filter_valid positiveMonths dropnaMonths
  simp only [List.mem_filter, List.all_eq_true]
  constructor
  · rintro ⟨⟨hmem, hsome⟩, hpos⟩
    refine ⟨hmem, fun m => ?_⟩
    have h1 := hsome m (by cases m <;> simp [monthsList])
    have h2 := hpos m (by cases m <;> simp [monthsList])
    cases hv : r.metric m with
    | none => rw [hv] at h1; simp at h1
    | some v =>
      rw [hv] at h2
      simp at h2
      exact ⟨v, rfl, h2⟩
  · rintro ⟨hmem, hval⟩
    refine ⟨⟨hmem, fun m _ => ?_⟩, fun m _ => ?_⟩
    · obtain ⟨v, hv, _⟩ := hval m
      simp [hv]
    · obtain ⟨v, hv, hp⟩ := hval m
      simp [hv, hp]

theorem filter_valid_sublist (t : List RawRow) : (filter_valid t).Sublist t :=
  (List.filter_sublist _).trans (List.filter_sublist _)

/-- C5: `filter_valid` (the row-validity stage of `preprocess_dataframe`)
retains exactly the rows whose metric is non-null and strictly positive in
every listed period, preserves the relative order of retained rows (its
output is a sublist of its input), and in particular excludes any row whose
metric is exactly `0` in some required period. -/
theorem filter_valid_spec (t : List RawRow) (r : RawRow) :
    (r ∈ filter_valid t ↔ r ∈ t ∧ ∀ m : Month, ∃ v : Int, r.metric m = some v ∧ 0 < v) ∧
    (filter_valid t).Sublist t ∧
    ((∃ m : Month, r.metric m = some 0) → r ∉ filter_valid t) := by
  refine ⟨mem_filter_valid t r, filter_valid_sublist t, ?_⟩
  rintro ⟨m, hm⟩ hmem
  obtain ⟨-, hval⟩ := (mem_filter_valid t r).mp hmem
  obtain ⟨v, hv, hpos⟩ := hval m
  rw [hm] at hv
  cases hv
  exact lt_irrefl 0 hpos

def c5rowGood : RawRow :=
  { betting_house := "good", may := some 3, june := some 1, july := some 2, august := some 9 }

def c5rowZero : RawRow :=
  { betting_house := "zero", may := some 3, june := some 0, july := some 2, august := some 9 }

/-- Witness for `filter_valid_spec`: a row with a `0` June metric is excluded
from the filtered table. -/
theorem filter_valid_spec_witness :
    c5rowZero ∉ filter_valid [c5rowGood, c5rowZero] :=
  (filter_valid_spec [c5rowGood, c5rowZero] c5rowZero).2.2 ⟨Month.june, rfl⟩

theorem exists_max_key {α : Type} (f : α → Int) (l : List α) (h : l ≠ []) :
    ∃ a ∈ l, ∀ b ∈ l, f b ≤ f a := by
  induction l with
  | nil => exact absurd rfl h
  | cons x xs ih =>
    cases xs with
    | nil =>
      refine ⟨x, List.mem_cons_self x [], fun b hb => ?_⟩
      simp only [List.mem_singleton] at hb
      exact hb ▸ le_refl _
    | cons y ys =>
      obtain ⟨a, ha, hmax⟩ := ih (by simp)
      by_cases hc : f a ≤ f x
      · refine ⟨x, List.mem_cons_self x _, fun b hb => ?_⟩
        rcases List.mem_cons.mp hb with hb | hb
        · exact hb ▸ le_refl _
        · exact (hmax b hb).trans hc
      · refine ⟨a, List.mem_cons_of_mem x ha, fun b hb => ?_⟩
        rcases List.mem_cons.mp hb with hb | hb
        · exact hb ▸ le_of_not_le hc
        · exact hmax b hb

theorem preprocess_map_metric (t : List RawRow) (m : Month) :
    (preprocess_dataframe t).map (fun p => p.metricOf m) =
      ((filter_valid t).map toValid).map (fun r => r.metricOf m) := by
  unfold preprocess_dataframe
  rw [List.map_map]
  exact List.map_congr_left (fun r _ => metricOf_mkProc _ _ _ _ r m)

theorem preprocess_rank_eq (t : List RawRow) (m : Month) (p : ProcRow)
    (hp : p ∈ preprocess_dataframe t) :
    p.rankOf m = rankMin ((preprocess_dataframe t).map (fun q => q.metricOf m)) (p.metricOf m) := by
  obtain ⟨r0, hr0, rfl⟩ := List.mem_map.mp hp
  rw [rankOf_mkProc, colOf_map, metricOf_mkProc, preprocess_map_metric]

theorem rankMin_pos (vals : List Int) (v : Int) : 1 ≤ rankMin vals v := by
  unfold rankMin
  omega

theorem rankMin_le_length (vals : List Int) (v : Int) (hv : v ∈ vals) :
    rankMin vals v ≤ (vals.length : Int) := by
  unfold rankMin
  have hne : vals.countP (fun x => decide (v < x)) ≠ vals.length := by
    intro h
    have := List.countP_eq_length.mp h v hv
    simp at this
  have hle : vals.countP (fun x => decide (v < x)) ≤ vals.length :=
    List.countP_le_length _
  omega

/-- C1 (amended): in `preprocess_dataframe`'s output, each month's rank
column is exactly the min-tie-break competition rank over the filtered
population: `rank = 1 + (number of retained rows with strictly greater
metric that month)`; ranks lie in `1..K` where `K` is the number of rows
valid in *every* listed period (not the number valid in the given period
alone); equal metrics receive equal ranks; and some retained row with the
maximum metric receives rank 1. -/
theorem compute_ranks_spec (t : List RawRow) (m : Month) (p : ProcRow)
    (hp : p ∈ preprocess_dataframe t) :
    (p.rankOf m =
      rankMin ((preprocess_dataframe t).map (fun q => q.metricOf m)) (p.metricOf m)) ∧
    1 ≤ p.rankOf m ∧
    p.rankOf m ≤ ((preprocess_dataframe t).length : Int) ∧
    (preprocess_dataframe t).length = (filter_valid t).length ∧
    (∀ s ∈ preprocess_dataframe t, s.metricOf m = p.metricOf m → s.rankOf m = p.rankOf m) ∧
    (∃ b ∈ preprocess_dataframe t,
      b.rankOf m = 1 ∧ ∀ s ∈ preprocess_dataframe t, s.metricOf m ≤ b.metricOf m) := by
  have hrank := preprocess_rank_eq t m p hp
  have hlen : ((preprocess_dataframe t).map (fun q => q.metricOf m)).length =
      (preprocess_dataframe t).length := List.length_map _ _
  refine ⟨hrank, ?_, ?_, ?_, ?_, ?_⟩
  · rw [hrank]; exact rankMin_pos _ _
  · rw [hrank]
    have hv : p.metricOf m ∈ (preprocess_dataframe t).map (fun q => q.metricOf m) :=
      List.mem_map_of_mem _ hp
    have := rankMin_le_length _ _ hv
    rw [hlen] at this
    exact this
  · unfold preprocess_dataframe
    simp
  · intro s hs heq
    rw [preprocess_rank_eq t m s hs, hrank, heq]
  · have hne : preprocess_dataframe t ≠ [] := List.ne_nil_of_mem hp
    obtain ⟨b, hb, hmax⟩ := exists_max_key (fun q => q.metricOf m) _ hne
    refine ⟨b, hb, ?_, hmax⟩
    rw [preprocess_rank_eq t m b hb]
    unfold rankMin
    have : ((preprocess_dataframe t).map (fun q => q.metricOf m)).countP
        (fun x => decide (b.metricOf m < x)) = 0 := by
      rw [List.countP_eq_zero]
      intro x hx
      obtain ⟨s, hs, rfl⟩ := List.mem_map.mp hx
      simp only [decide_eq_true_eq]
      exact not_lt.mpr (hmax s hs)
    rw [this]
    rfl

def c1rowTie1 : RawRow :=
  { betting_house := "A", may := some 100, june := some 100, july := some 7, august := some 8 }

def c1rowTie2 : RawRow :=
  { betting_house := "B", may := some 100, june := some 60, july := some 7, august := some 8 }

def c1rowTie3 : RawRow :=
  { betting_house := "C", may := some 50, june := some 50, july := some 7, august := some 8 }

/-- Witness for `compute_ranks_spec`: on the tie table (May metrics 100,
100, 50) the first row is in the processed output and its May rank is `1 +
(count of strictly greater May metrics)`. -/
theorem compute_ranks_spec_witness :
    ∃ p ∈ preprocess_dataframe [c1rowTie1, c1rowTie2, c1rowTie3],
      p.betting_house = "A" ∧
      p.rankOf Month.may =
        rankMin ((preprocess_dataframe [c1rowTie1, c1rowTie2, c1rowTie3]).map
          (fun q => q.metricOf Month.may)) (p.metricOf Month.may) := by
  have hv : toValid c1rowTie1 ∈ (filter_valid [c1rowTie1, c1rowTie2, c1rowTie3]).map toValid := by
    decide
  exact ⟨_, List.mem_map_of_mem _ hv, rfl,
    (compute_ranks_spec [c1rowTie1, c1rowTie2, c1rowTie3] Month.may _
      (List.mem_map_of_mem _ hv)).1⟩

def c1rowPartial : RawRow :=
  { betting_house := "X", may := some 100, june := some 0, july := some 1, august := some 1 }

def c1rowFull : RawRow :=
  { betting_house := "Y", may := some 50, june := some 1, july := some 1, august := some 1 }

/-- C1 counterexample: on an input whose row "X" has a valid (non-null,
strictly positive) May metric but a zero June metric, the code drops "X"
entirely, so the May ranks are not a permutation-with-ties of `1..K` for
`K` = count of entities with valid May metric (which is 2): only one rank
is assigned, and no output row is "X". -/
theorem compute_ranks_claim_counterexample :
    validInPeriod Month.may c1rowPartial = true ∧
    ([c1rowPartial, c1rowFull].countP (validInPeriod Month.may)) = 2 ∧
    (preprocess_dataframe [c1rowPartial, c1rowFull]).map ProcRow.betting_house = ["Y"] ∧
    (preprocess_dataframe [c1rowPartial, c1rowFull]).map (fun p => p.rankOf Month.may) = [1] := by
  exact ⟨rfl, rfl, by decide, by decide⟩

/-- The classification lambda of `calculate_position_variation`:
`"Gained" if x > 0 else "Lost" if x < 0 else "Maintained"`. -/
def classify_trend (d : Int) : String :=
  if 0 < d then "Gained" else if d < 0 then "Lost" else "Maintained"

theorem classify_trend_gained_iff (d : Int) : classify_trend d = "Gained" ↔ 0 < d := by
  unfold classify_trend
  split_ifs <;> simp_all

theorem classify_trend_lost_iff (d : Int) : classify_trend d = "Lost" ↔ d < 0 := by
  unfold classify_trend
  split_ifs <;> simp_all
  omega

theorem classify_trend_maintained_iff (d : Int) : classify_trend d = "Maintained" ↔ d = 0 := by
  unfold classify_trend
  split_ifs <;> simp_all <;> omega

/-- C8: the trend classification is total and mutually exclusive over the
integers: the label is `"Gained"` exactly when `delta > 0`, `"Lost"` exactly
when `delta < 0`, `"Maintained"` exactly when `delta = 0`, and every input
receives one of the three labels. -/
theorem classify_trend_spec (d : Int) :
    (classify_trend d = "Gained" ↔ 0 < d) ∧
    (classify_trend d = "Lost" ↔ d < 0) ∧
    (classify_trend d = "Maintained" ↔ d = 0) ∧
    (classify_trend d = "Gained" ∨ classify_trend d = "Lost" ∨
      classify_trend d = "Maintained") := by
  refine ⟨classify_trend_gained_iff d, classify_trend_lost_iff d,
    classify_trend_maintained_iff d, ?_⟩
  rcases lt_trichotomy d 0 with h | h | h
  · exact Or.inr (Or.inl ((classify_trend_lost_iff d).mpr h))
  · exact Or.inr (Or.inr ((classify_trend_maintained_iff d).mpr h))
  · exact Or.inl ((classify_trend_gained_iff d).mpr h)

/-- Witness for `classify_trend_spec`: at `delta = 1` the label is
`"Gained"`. -/
theorem classify_trend_spec_witness : classify_trend 1 = "Gained" :=
  (classify_trend_spec 1).1.mpr (by decide)

/-- A row of the table passed to
`visualization.identify_sustained_growth_brands`: June–August metrics (still
possibly null) and the per-month rank columns computed earlier. -/
structure SGRow where
  betting_house : String
  june : Option Int
  july : Option Int
  august : Option Int
  rank_june : Int
  rank_july : Int
  rank_august : Int
deriving DecidableEq

/-- `df.dropna(subset=["june", "july", "august"])` row predicate. -/
def sgNotNull (r : SGRow) : Bool :=
  r.june.isSome && r.july.isSome && r.august.isSome

/-- `(df_filtered[["june", "july", "august"]] > 0).all(axis=1)` row
predicate. -/
def sgPositive (r : SGRow) : Bool :=
  decide (0 < r.june.getD 0) && decide (0 < r.july.getD 0) && decide (0 < r.august.getD 0)

/-- `growth_june_july = (july - june) / june * 100`. -/
def growth_june_july (r : SGRow) : Rat :=
  ((r.july.getD 0 : Rat) - (r.june.getD 0 : Rat)) / (r.june.getD 0 : Rat) * 100

/-- `growth_july_august = (august - july) / july * 100`. -/
def growth_july_august (r : SGRow) : Rat :=
  ((r.august.getD 0 : Rat) - (r.july.getD 0 : Rat)) / (r.july.getD 0 : Rat) * 100

/-- `total_growth_visits_percent = (august - june) / june * 100`. -/
def total_growth_visits_percent (r : SGRow) : Rat :=
  ((r.august.getD 0 : Rat) - (r.june.getD 0 : Rat)) / (r.june.getD 0 : Rat) * 100

/-- `total_position_change = rank_june - rank_august`. -/
def total_position_change (r : SGRow) : Int :=
  r.rank_june - r.rank_august

/-- `df_filtered`: betting houses with non-null, strictly positive data in
the last three months. -/
def sgFiltered (t : List SGRow) : List SGRow :=
  (t.filter sgNotNull).filter sgPositive

/-- `df_growth_peak`: houses whose month-over-month growth exceeded the
threshold in June→July or July→August. -/
def sgGrowthPeak (thr : Rat) (t : List SGRow) : List SGRow :=
  (sgFiltered t).filter
    (fun r => decide (thr < growth_june_july r) || decide (thr < growth_july_august r))

/-- `df_sustained_growth`: peak houses with positive growth in both adjacent
pairs and a strictly improved rank from June to August. -/
def sustainedGrowthSet (thr : Rat) (t : List SGRow) : List SGRow :=
  (sgGrowthPeak thr t).filter
    (fun r => decide (0 < growth_june_july r) && decide (0 < growth_july_august r) &&
      decide (0 < total_position_change r))

/-- Descending order on total quarter growth, used for the final
`sort_values(..., ascending=False)`. -/
def sgRel (a b : SGRow) : Prop :=
  total_growth_visits_percent b ≤ total_growth_visits_percent a

instance : DecidableRel sgRel := fun a b =>
  inferInstanceAs (Decidable (total_growth_visits_percent b ≤ total_growth_visits_percent a))

/-- `visualization.identify_sustained_growth_brands`: the sustained-growth
houses sorted by total quarter growth, truncated to the top 10. -/
def identify_sustained_growth_brands (thr : Rat) (t : List SGRow) : List SGRow :=
  (List.insertionSort sgRel (sustainedGrowthSet thr t)).take 10

def c6row : SGRow :=
  { betting_house := "q", june := some 100, july := some 200, august := some 300
    rank_june := 1, rank_july := 1, rank_august := 1 }

/-- C6 counterexample: the row "q" (visits 100, 200, 300; rank 1 in both
June and August) satisfies both conditions of the claim — a growth spike
above the 50% threshold and strictly positive growth in every adjacent
pair — yet `identify_sustained_growth_brands` returns the empty table
because the code additionally requires `total_position_change > 0`. -/
theorem sustained_growth_claim_counterexample :
    sgNotNull c6row = true ∧ sgPositive c6row = true ∧
    (50 : Rat) < growth_june_july c6row ∧
    (0 < growth_june_july c6row ∧ 0 < growth_july_august c6row) ∧
    identify_sustained_growth_brands 50 [c6row] = [] := by
  have hset : sustainedGrowthSet 50 [c6row] = [] := by
    unfold sustainedGrowthSet
    rw [List.filter_eq_nil_iff]
    intro a ha
    have hmem : a ∈ [c6row] := by
      unfold sgGrowthPeak sgFiltered at ha
      exact List.mem_of_mem_filter (List.mem_of_mem_filter (List.mem_of_mem_filter ha))
    rw [List.mem_singleton.mp hmem]
    simp [total_position_change, c6row]
  refine ⟨rfl, rfl, ?_, ⟨?_, ?_⟩, ?_⟩
  · norm_num [growth_june_july, c6row]
  · norm_num [growth_june_july, c6row]
  · norm_num [growth_july_august, c6row]
  · unfold identify_sustained_growth_brands
    rw [hset]
    rfl

/-- C6 (amended): an entity belongs to the sustained-growth set (from which
the code returns the top 10 by total quarter growth) if and only if it has
valid June–August metrics, its growth exceeded the threshold in at least one
adjacent month pair, its growth is strictly positive in every adjacent month
pair, and additionally its rank strictly improved from June to August
(`total_position_change > 0`); the returned table contains only members of
that set. -/
theorem sustained_growth_spec (thr : Rat) (t : List SGRow) (r : SGRow) :
    (r ∈ sustainedGrowthSet thr t ↔
      r ∈ t ∧ sgNotNull r = true ∧ sgPositive r = true ∧
      (thr < growth_june_july r ∨ thr < growth_july_august r) ∧
      (0 < growth_june_july r ∧ 0 < growth_july_august r) ∧
      0 < total_position_change r) ∧
    ∀ s ∈ identify_sustained_growth_brands thr t, s ∈ sustainedGrowthSet thr t := by
  constructor
  · unfold sustainedGrowthSet sgGrowthPeak sgFiltered
    simp only [List.mem_filter, Bool.and_eq_true, Bool.or_eq_true, decide_eq_true_eq]
    tauto
  · intro s hs
    have hmem := List.mem_of_mem_take hs
    exact (List.perm_insertionSort sgRel _).subset hmem

def c6rowUp : SGRow :=
  { betting_house := "w", june := some 100, july := some 200, august := some 300
    rank_june := 5, rank_july := 3, rank_august := 1 }

/-- Witness for `sustained_growth_spec`: a house with 100%/50% adjacent
growth and rank improving 5 → 1 is in the sustained-growth set. -/
theorem sustained_growth_spec_witness : c6rowUp ∈ sustainedGrowthSet 50 [c6rowUp] := by
  refine (sustained_growth_spec 50 [c6rowUp] c6rowUp).1.mpr
    ⟨List.mem_singleton.mpr rfl, rfl, rfl, Or.inl ?_, ⟨?_, ?_⟩, by decide⟩
  · norm_num [growth_june_july, c6rowUp]
  · norm_num [growth_june_july, c6rowUp]
  · norm_num [growth_july_august, c6rowUp]

/-- A DataFrame cell that is either numeric or a formatted string (the
`growth_percentage` / `visits_sum` / `visits_avg` columns change from
numeric to string in place inside `generate_visits_summary`). -/
inductive CellVal
  | num (q : Rat)
  | str (s : String)
deriving DecidableEq

/-- Python `int(value)`: truncation toward zero. -/
def pyTrunc (q : Rat) : Int :=
  q.num / (q.den : Int)

/-- Floor of a rational, used by `pyRound`. -/
def ratFloor (q : Rat) : Int :=
  Int.fdiv q.num (q.den : Int)

/-- Python `round(value)` (round-half-to-even), on the exact rational. -/
def pyRound (q : Rat) : Int :=
  let f := ratFloor q
  let frac := q - (f : Rat)
  if frac < 1 / 2 then f
  else if 1 / 2 < frac then f + 1
  else if f % 2 = 0 then f else f + 1

/-- Python `f-string` one-decimal formatting of a non-negative value
(the float rounding is modelled on the exact rational). -/
def fmt1 (q : Rat) : String :=
  let n := pyRound (q * 10)
  toString (n / 10) ++ "." ++ toString (n % 10)

/-- `format_large_numbers` of `generate_visits_summary`. -/
def format_large_numbers (q : Rat) : String :=
  if (1000000000 : Rat) ≤ q then fmt1 (q / 1000000000) ++ " bilhões"
  else if (1000000 : Rat) ≤ q then fmt1 (q / 1000000) ++ " milhões"
  else if (1000 : Rat) ≤ q then fmt1 (q / 1000) ++ " mil"
  else toString (pyTrunc q)

/-- `.apply(format_large_numbers)` on a cell. -/
def fmtLargeCell : CellVal → CellVal
  | CellVal.num q => CellVal.str (format_large_numbers q)
  | CellVal.str s => CellVal.str s

/-- `.apply(lambda x: f"{round(x)}%")` on a cell. -/
def fmtGrowthCell : CellVal → CellVal
  | CellVal.num q => CellVal.str (toString (pyRound q) ++ "%")
  | CellVal.str s => CellVal.str s

/-- A row of the table passed to `generate_visits_summary`; `visits_sum` and
`visits_avg` are `none` while the columns do not exist yet. -/
structure GRow where
  betting_house : String
  may : Int
  june : Int
  july : Int
  august : Int
  growth_percentage : CellVal
  visits_sum : Option CellVal
  visits_avg : Option CellVal
deriving DecidableEq

/-- `df[["may", "june", "july", "august"]].sum(axis=1)` for one row. -/
def monthsSum (r : GRow) : Rat :=
  ((r.may + r.june + r.july + r.august : Int) : Rat)

/-- `df["visits_sum"] = ...` : writes the sum column into the table. -/
def gvsStep1 (r : GRow) : GRow :=
  { r with visits_sum := some (CellVal.num (monthsSum r)) }

/-- `df["visits_avg"] = ...` : writes the mean column into the table. -/
def gvsStep2 (r : GRow) : GRow :=
  { r with visits_avg := some (CellVal.num (monthsSum r / 4)) }

/-- `df["visits_sum"] = df["visits_sum"].apply(format_large_numbers)`. -/
def gvsStep3 (r : GRow) : GRow :=
  { r with visits_sum := r.visits_sum.map fmtLargeCell }

/-- `df["visits_avg"] = df["visits_avg"].apply(format_large_numbers)`. -/
def gvsStep4 (r : GRow) : GRow :=
  { r with visits_avg := r.visits_avg.map fmtLargeCell }

/-- `df["growth_percentage"] = df["growth_percentage"].apply(...)`. -/
def gvsStep5 (r : GRow) : GRow :=
  { r with growth_percentage := fmtGrowthCell r.growth_percentage }

/-- The four columns selected as `result_df`. -/
structure SummaryRow where
  betting_house : String
  growth_percentage : CellVal
  visits_sum : Option CellVal
  visits_avg : Option CellVal
deriving DecidableEq

/-- `statistics.generate_visits_summary`: returns the caller's table as it
stands after the call (the function assigns columns of `df` in place: first
component) together with the selected `result_df` (second component). -/
def generate_visits_summary (t : List GRow) : List GRow × List SummaryRow :=
  let s1 := t.map gvsStep1
  let s2 := s1.map gvsStep2
  let s3 := s2.map gvsStep3
  let s4 := s3.map gvsStep4
  let s5 := s4.map gvsStep5
  (s5, s5.map (fun r =>
    { betting_house := r.betting_house
      growth_percentage := r.growth_percentage
      visits_sum := r.visits_sum
      visits_avg := r.visits_avg }))

/-- Net per-row effect of `generate_visits_summary` on the caller's table. -/
def gvsWriteBack (r : GRow) : GRow :=
  gvsStep5 (gvsStep4 (gvsStep3 (gvsStep2 (gvsStep1 r))))

/-- A row of the ranked table passed to `calculate_position_variation`;
the `initial_rank` / `final_rank` / `position_variation` / `performance`
columns are `none` while they do not exist yet. -/
structure VRow where
  betting_house : String
  rank_may : Int
  rank_june : Int
  rank_july : Int
  rank_august : Int
  initial_rank : Option Int
  final_rank : Option Int
  position_variation : Option Int
  performance : Option String
deriving DecidableEq

/-- Rank-column selector (`df[ranking_columns[i]]`). -/
def VRow.rankCol (r : VRow) : Month → Int
  | Month.may => r.rank_may
  | Month.june => r.rank_june
  | Month.july => r.rank_july
  | Month.august => r.rank_august

/-- `df["initial_rank"] = df[ranking_columns[0]]`. -/
def cpvStep1 (cols : List Month) (r : VRow) : VRow :=
  { r with initial_rank := some (r.rankCol (cols.headD Month.may)) }

/-- `df["final_rank"] = df[ranking_columns[-1]]`. -/
def cpvStep2 (cols : List Month) (r : VRow) : VRow :=
  { r with final_rank := some (r.rankCol (cols.getLastD Month.may)) }

/-- `df["position_variation"] = df["initial_rank"] - df["final_rank"]`. -/
def cpvStep3 (r : VRow) : VRow :=
  { r with position_variation := some (r.initial_rank.getD 0 - r.final_rank.getD 0) }

/-- `df["performance"] = df["position_variation"].apply(lambda ...)`. -/
def cpvStep4 (r : VRow) : VRow :=
  { r with performance := some (classify_trend (r.position_variation.getD 0)) }

/-- The five columns returned by `calculate_position_variation`. -/
structure PosVarRow where
  betting_house : String
  initial_rank : Option Int
  final_rank : Option Int
  position_variation : Option Int
  performance : Option String
deriving DecidableEq

/-- `visualization.calculate_position_variation`: returns the caller's table
as it stands after the call (columns are assigned in place) together with
the selected five-column result. -/
def calculate_position_variation (cols : List Month) (t : List VRow) :
    List VRow × List PosVarRow :=
  let s1 := t.map (cpvStep1 cols)
  let s2 := s1.map (cpvStep2 cols)
  let s3 := s2.map cpvStep3
  let s4 := s3.map cpvStep4
  (s4, s4.map (fun r =>
    { betting_house := r.betting_house
      initial_rank := r.initial_rank
      final_rank := r.final_rank
      position_variation := r.position_variation
      performance := r.performance }))

/-- Net per-row effect of `calculate_position_variation` on the caller's
table. -/
def cpvWriteBack (cols : List Month) (r : VRow) : VRow :=
  cpvStep4 (cpvStep3 (cpvStep2 cols (cpvStep1 cols r)))

theorem eq_of_map_eq_self {α : Type} (f : α → α) :
    ∀ l : List α, l.map f = l → ∀ x ∈ l, f x = x := by
  intro l
  induction l with
  | nil => intro _ x hx; cases hx
  | cons a as ih =>
    intro h x hx
    rw [List.map_cons] at h
    injection h with h1 h2
    rcases List.mem_cons.mp hx with hx | hx
    · exact hx ▸ h1
    · exact ih h2 x hx

def c4row : GRow :=
  { betting_house := "a", may := 1, june := 2, july := 3, august := 4
    growth_percentage := CellVal.num 300, visits_sum := none, visits_avg := none }

/-- C4 counterexample: `generate_visits_summary` does not leave the caller's
input table unchanged — after the call on a one-row table the table has
gained `visits_sum`/`visits_avg` columns and its `growth_percentage` column
has been overwritten with a formatted string. -/
theorem purity_claim_counterexample :
    (generate_visits_summary [c4row]).1 ≠ [c4row] := by
  intro h
  have h0 : (generate_visits_summary [c4row]).1 = [gvsWriteBack c4row] := rfl
  rw [h0] at h
  have h1 : gvsWriteBack c4row = c4row := by
    injection h
  have h2 : (gvsWriteBack c4row).visits_sum = c4row.visits_sum := congrArg GRow.visits_sum h1
  simp [gvsWriteBack, gvsStep5, gvsStep4, gvsStep3, gvsStep2, gvsStep1, c4row] at h2

/-- C4 (amended): `generate_visits_summary` and
`calculate_position_variation` write their derived columns into the caller's
table in place — after a call the caller's table equals the input mapped
through the corresponding per-row write-back (so any table holding a numeric
`growth_percentage` is changed by `generate_visits_summary`, and a second
call does not see the original input); the functions remain deterministic on
equal input values. -/
theorem table_mutation_spec (tg : List GRow) (tv : List VRow) (cols : List Month) :
    (generate_visits_summary tg).1 = tg.map gvsWriteBack ∧
    (calculate_position_variation cols tv).1 = tv.map (cpvWriteBack cols) ∧
    ((∃ r ∈ tg, ∃ q : Rat, r.growth_percentage = CellVal.num q) →
      (generate_visits_summary tg).1 ≠ tg) := by
  have hg : (generate_visits_summary tg).1 = tg.map gvsWriteBack := by
    unfold generate_visits_summary
    simp only [List.map_map]
    rfl
  have hv : (calculate_position_variation cols tv).1 = tv.map (cpvWriteBack cols) := by
    unfold calculate_position_variation
    simp only [List.map_map]
    rfl
  refine ⟨hg, hv, ?_⟩
  rintro ⟨r, hr, q, hq⟩ h
  rw [hg] at h
  have h1 : gvsWriteBack r = r := eq_of_map_eq_self gvsWriteBack tg h r hr
  have h2 : (gvsWriteBack r).growth_percentage = r.growth_percentage :=
    congrArg GRow.growth_percentage h1
  have h3 : (gvsWriteBack r).growth_percentage = fmtGrowthCell r.growth_percentage := rfl
  rw [h3, hq] at h2
  exact CellVal.noConfusion h2

/-- Witness for `table_mutation_spec`: on the concrete one-row table the
caller's table is changed by the call. -/
theorem table_mutation_spec_witness :
    (generate_visits_summary [c4row]).1 ≠ [c4row] :=
  (table_mutation_spec [c4row] [] []).2.2 ⟨c4row, List.mem_singleton.mpr rfl, 300, rfl⟩

/-- A row of the classified table passed to `get_top_movers`: the original
row position (`idx`, the DataFrame index), the entity, its position delta
and its performance label. -/
structure MRow where
  idx : Nat
  betting_house : String
  position_variation : Int
  performance : String
deriving DecidableEq

/-- Descending order on `position_variation`: the sort order underlying
`nlargest(top_n, "position_variation")` (pandas `nlargest` with the default
`keep="first"` equals a stable descending sort followed by `head(n)`). -/
def rdesc (a b : MRow) : Prop :=
  b.position_variation ≤ a.position_variation

/-- Ascending order on `position_variation`, underlying `nsmallest`. -/
def rasc (a b : MRow) : Prop :=
  a.position_variation ≤ b.position_variation

instance : DecidableRel rdesc := fun a b =>
  inferInstanceAs (Decidable (b.position_variation ≤ a.position_variation))

instance : DecidableRel rasc := fun a b =>
  inferInstanceAs (Decidable (a.position_variation ≤ b.position_variation))

instance : IsTotal MRow rdesc :=
  ⟨fun a b => Int.le_total b.position_variation a.position_variation⟩

instance : IsTrans MRow rdesc :=
  ⟨fun _ _ _ hab hbc => le_trans hbc hab⟩

instance : IsTotal MRow rasc :=
  ⟨fun a b => Int.le_total a.position_variation b.position_variation⟩

instance : IsTrans MRow rasc :=
  ⟨fun _ _ _ hab hbc => le_trans hab hbc⟩

/-- `df[df["performance"] == "Maintained"]`. -/
def maintainedPool (t : List MRow) : List MRow :=
  t.filter (fun r => decide (r.performance = "Maintained"))

/-- `df[df["performance"] == "Gained"]`. -/
def gainersPool (t : List MRow) : List MRow :=
  t.filter (fun r => decide (r.performance = "Gained"))

/-- `df[df["performance"] == "Lost"]`. -/
def losersPool (t : List MRow) : List MRow :=
  t.filter (fun r => decide (r.performance = "Lost"))

/-- `.nlargest(top_n, "position_variation")` on the gainers. -/
def top_gainers (n : Nat) (t : List MRow) : List MRow :=
  (List.insertionSort rdesc (gainersPool t)).take n

/-- `.nsmallest(top_n, "position_variation")` on the losers. -/
def top_losers (n : Nat) (t : List MRow) : List MRow :=
  (List.insertionSort rasc (losersPool t)).take n

/-- `visualization.get_top_movers`: concatenation of the maintained rows,
the top `n` gainers and the top `n` losers. -/
def get_top_movers (n : Nat) (t : List MRow) : List MRow :=
  maintainedPool t ++ top_gainers n t ++ top_losers n t

theorem insertionSort_filter_pv (r : MRow → MRow → Prop) [DecidableRel r]
    (hrefl : ∀ a b : MRow, a.position_variation = b.position_variation → r a b)
    (l : List MRow) (k : Int) :
    (List.insertionSort r l).filter (fun s => decide (s.position_variation = k)) =
      l.filter (fun s => decide (s.position_variation = k)) := by
  set pk := fun s : MRow => decide (s.position_variation = k) with hpk
  have hpair : (l.filter pk).Pairwise r := by
    apply List.pairwise_of_forall_mem_list
    intro a ha b hb
    have ha2 := (List.mem_filter.mp ha).2
    have hb2 := (List.mem_filter.mp hb).2
    rw [hpk] at ha2 hb2
    simp only [decide_eq_true_eq] at ha2 hb2
    exact hrefl a b (ha2.trans hb2.symm)
  have hsub2 : l.filter pk <+ List.insertionSort r l :=
    List.sublist_insertionSort hpair (List.filter_sublist l)
  have hsub3 : l.filter pk <+ (List.insertionSort r l).filter pk := by
    have h4 := hsub2.filter pk
    rw [List.filter_filter] at h4
    have h5 : (fun a => pk a && pk a) = pk := funext fun a => Bool.and_self (pk a)
    rwa [h5] at h4
  have hperm : (List.insertionSort r l).filter pk ~ l.filter pk :=
    (List.perm_insertionSort r l).filter pk
  exact (hsub3.eq_of_length hperm.length_eq.symm).symm

theorem sorted_take_drop_idx (r : MRow → MRow → Prop) [DecidableRel r]
    (hrefl : ∀ a b : MRow, a.position_variation = b.position_variation → r a b)
    (l : List MRow) (hl : l.Pairwise (fun a b => a.idx < b.idx)) (n : Nat)
    {x y : MRow} (hx : x ∈ (List.insertionSort r l).take n)
    (hy : y ∈ (List.insertionSort r l).drop n)
    (hkey : y.position_variation = x.position_variation) : x.idx < y.idx := by
  set s := List.insertionSort r l with hs
  set pk := fun z : MRow => decide (z.position_variation = x.position_variation) with hpk
  have hxk : pk x = true := by simp [hpk]
  have hyk : pk y = true := by simp [hpk, hkey]
  have hstab : s.filter pk = l.filter pk := insertionSort_filter_pv r hrefl l _
  have hsplit : l.filter pk = (s.take n).filter pk ++ (s.drop n).filter pk := by
    rw [← List.filter_append, List.take_append_drop, hstab]
  have hpair : (l.filter pk).Pairwise (fun a b => a.idx < b.idx) :=
    List.Pairwise.sublist (List.filter_sublist l) hl
  rw [hsplit] at hpair
  exact (List.pairwise_append.mp hpair).2.2 x (List.mem_filter.mpr ⟨hx, hxk⟩) y
    (List.mem_filter.mpr ⟨hy, hyk⟩)

theorem mem_drop_of_not_mem_take (r : MRow → MRow → Prop) [DecidableRel r]
    (l : List MRow) (n : Nat) {s : MRow} (hs : s ∈ l)
    (hnot : s ∉ (List.insertionSort r l).take n) :
    s ∈ (List.insertionSort r l).drop n := by
  have hmem : s ∈ List.insertionSort r l := (List.perm_insertionSort r l).mem_iff.mpr hs
  rw [← List.take_append_drop n (List.insertionSort r l)] at hmem
  rcases List.mem_append.mp hmem with h | h
  · exact absurd h hnot
  · exact h

/-- C7: `get_top_movers` returns all maintained entities (zero delta) in
full — never truncated to `n` — plus at most `n` gainers (positive delta)
and at most `n` losers (negative delta); every returned row comes from the
input; and the selected gainers (resp. losers) are the `n` largest (resp.
most negative) deltas, ties broken by original table order: an unselected
candidate never has a strictly better delta, and on an equal delta the
selected row occurs earlier in the table. (Hypotheses: the table's indices
are strictly increasing, and its `performance` column is consistent with
its `position_variation` column, as produced by
`calculate_position_variation`.) -/
theorem get_top_movers_spec (n : Nat) (t : List MRow)
    (hidx : t.Pairwise (fun a b => a.idx < b.idx))
    (hperf : ∀ r ∈ t, r.performance = classify_trend r.position_variation) :
    (∀ r ∈ t, r.position_variation = 0 → r ∈ get_top_movers n t) ∧
    (∀ r ∈ get_top_movers n t, r ∈ t) ∧
    (∀ r ∈ maintainedPool t, r.position_variation = 0) ∧
    (top_gainers n t).length ≤ n ∧
    (top_losers n t).length ≤ n ∧
    (∀ r ∈ top_gainers n t, 0 < r.position_variation) ∧
    (∀ r ∈ top_losers n t, r.position_variation < 0) ∧
    (∀ r ∈ top_gainers n t, ∀ s ∈ gainersPool t, s ∉ top_gainers n t →
      s.position_variation ≤ r.position_variation ∧
      (s.position_variation = r.position_variation → r.idx < s.idx)) ∧
    (∀ r ∈ top_losers n t, ∀ s ∈ losersPool t, s ∉ top_losers n t →
      r.position_variation ≤ s.position_variation ∧
      (s.position_variation = r.position_variation → r.idx < s.idx)) := by
  have hgain_mem : ∀ r ∈ top_gainers n t, r ∈ gainersPool t := by
    intro r hr
    exact (List.perm_insertionSort rdesc (gainersPool t)).subset (List.mem_of_mem_take hr)
  have hlose_mem : ∀ r ∈ top_losers n t, r ∈ losersPool t := by
    intro r hr
    exact (List.perm_insertionSort rasc (losersPool t)).subset (List.mem_of_mem_take hr)
  have hgainpool : ∀ r ∈ gainersPool t, r ∈ t ∧ 0 < r.position_variation := by
    intro r hr
    obtain ⟨hrt, hlbl⟩ := List.mem_filter.mp hr
    simp only [decide_eq_true_eq] at hlbl
    refine ⟨hrt, ?_⟩
    rw [hperf r hrt] at hlbl
    exact (classify_trend_gained_iff _).mp hlbl
  have hlosepool : ∀ r ∈ losersPool t, r ∈ t ∧ r.position_variation < 0 := by
    intro r hr
    obtain ⟨hrt, hlbl⟩ := List.mem_filter.mp hr
    simp only [decide_eq_true_eq] at hlbl
    refine ⟨hrt, ?_⟩
    rw [hperf r hrt] at hlbl
    exact (classify_trend_lost_iff _).mp hlbl
  have hgidx : (gainersPool t).Pairwise (fun a b => a.idx < b.idx) :=
    List.Pairwise.sublist (List.filter_sublist t) hidx
  have hlidx : (losersPool t).Pairwise (fun a b => a.idx < b.idx) :=
    List.Pairwise.sublist (List.filter_sublist t) hidx
  have hrefl_desc : ∀ a b : MRow, a.position_variation = b.position_variation → rdesc a b :=
    fun a b h => le_of_eq h.symm
  have hrefl_asc : ∀ a b : MRow, a.position_variation = b.position_variation → rasc a b :=
    fun a b h => le_of_eq h
  refine ⟨?_, ?_, ?_, ?_, ?_, ?_, ?_, ?_, ?_⟩
  · intro r hr h0
    have hm : r ∈ maintainedPool t := by
      refine List.mem_filter.mpr ⟨hr, ?_⟩
      simp only [decide_eq_true_eq]
      rw [hperf r hr, h0]
      rfl
    exact List.mem_append_left _ (List.mem_append_left _ hm)
  · intro r hr
    rcases List.mem_append.mp hr with h | h
    · rcases List.mem_append.mp h with h | h
      · exact (List.mem_filter.mp h).1
      · exact (hgainpool r (hgain_mem r h)).1
    · exact (hlosepool r (hlose_mem r h)).1
  · intro r hr
    obtain ⟨hrt, hlbl⟩ := List.mem_filter.mp hr
    simp only [decide_eq_true_eq] at hlbl
    rw [hperf r hrt] at hlbl
    exact (classify_trend_maintained_iff _).mp hlbl
  · exact List.length_take_le n _
  · exact List.length_take_le n _
  · intro r hr
    exact (hgainpool r (hgain_mem r hr)).2
  · intro r hr
    exact (hlosepool r (hlose_mem r hr)).2
  · intro r hr s hs hnot
    have hsdrop := mem_drop_of_not_mem_take rdesc (gainersPool t) n hs hnot
    have hsorted := List.sorted_insertionSort rdesc (gainersPool t)
    refine ⟨hsorted.rel_of_mem_take_of_mem_drop hr hsdrop, fun hkey => ?_⟩
    exact sorted_take_drop_idx rdesc hrefl_desc (gainersPool t) hgidx n hr hsdrop hkey
  · intro r hr s hs hnot
    have hsdrop := mem_drop_of_not_mem_take rasc (losersPool t) n hs hnot
    have hsorted := List.sorted_insertionSort rasc (losersPool t)
    refine ⟨hsorted.rel_of_mem_take_of_mem_drop hr hsdrop, fun hkey => ?_⟩
    exact sorted_take_drop_idx rasc hrefl_asc (losersPool t) hlidx n hr hsdrop hkey

def c7rows : List MRow :=
  [{ idx := 0, betting_house := "g1", position_variation := 5, performance := "Gained" },
   { idx := 1, betting_house := "g2", position_variation := 5, performance := "Gained" },
   { idx := 2, betting_house := "m", position_variation := 0, performance := "Maintained" },
   { idx := 3, betting_house := "l", position_variation := -2, performance := "Lost" }]

/-- Witness for `get_top_movers_spec`: on a concrete classified table with
`top_n = 1`, the zero-delta row is returned even though `n = 1` would
truncate it if the maintained group were capped. -/
theorem get_top_movers_spec_witness :
    { idx := 2, betting_house := "m", position_variation := 0,
      performance := "Maintained" : MRow } ∈ get_top_movers 1 c7rows :=
  (get_top_movers_spec 1 c7rows (by decide) (by decide)).1 _ (by decide) rfl

/-- A row of the ranked table passed to `calculate_drop_and_recovery`. -/
structure DRow where
  betting_house : String
  rank_may : Int
  rank_june : Int
  rank_july : Int
  rank_august : Int
deriving DecidableEq

/-- Rank-column selector (`df_temp[col]`). -/
def DRow.rankOfD (r : DRow) : Month → Int
  | Month.may => r.rank_may
  | Month.june => r.rank_june
  | Month.july => r.rank_july
  | Month.august => r.rank_august

/-- The ordered pairs `(ranking_columns[i], ranking_columns[j])`, `i < j`,
visited by the double loop of `calculate_drop_and_recovery`. -/
def allPairs {α : Type} : List α → List (α × α)
  | [] => []
  | x :: xs => xs.map (fun y => (x, y)) ++ allPairs xs

/-- For each column pair, the rows with `dropped` (`drop_amount > 0`) and
`recovered` (`rank_j < rank_i`) both true, paired with their
`recovery_amount = drop_amount` — note the two conditions are the same
test, as in the source. -/
def dropRecoveryRows (cols : List Month) (t : List DRow) : List (DRow × Int) :=
  (allPairs cols).flatMap (fun p =>
    (t.filter (fun r => decide (0 < r.rankOfD p.1 - r.rankOfD p.2) &&
        decide (r.rankOfD p.2 < r.rankOfD p.1))).map
      (fun r => (r, r.rankOfD p.1 - r.rankOfD p.2)))

/-- Ascending string order for pandas `groupby`'s sorted keys. -/
def strAsc (a b : String) : Prop := ¬ b < a

instance : DecidableRel strAsc := fun a b =>
  inferInstanceAs (Decidable (¬ b < a))

/-- A row of the grouped result: house, its rank in each requested column
(`"first"` aggregation), and the maximum `recovery_amount`. -/
structure RecRow where
  betting_house : String
  ranks : List Int
  recovery_amount : Int
deriving DecidableEq

/-- `groupby("betting_house").agg({recovery_amount: max, ranks: first})`:
one row per distinct house (pandas sorts group keys), with the group's
maximal recovery amount and the first occurrence's ranks. -/
def groupMaxRecovery (cols : List Month) (rows : List (DRow × Int)) : List RecRow :=
  (List.insertionSort strAsc ((rows.map (fun x => x.1.betting_house)).eraseDups)).map
    (fun name =>
      let grp := rows.filter (fun x => decide (x.1.betting_house = name))
      { betting_house := name
        ranks :=
          match grp.head? with
          | some x => cols.map (fun c => x.1.rankOfD c)
          | none => []
        recovery_amount :=
          match grp.head? with
          | some x => grp.foldl (fun acc y => max acc y.2) x.2
          | none => 0 })

/-- Descending order on `recovery_amount` for the final sort. -/
def rrDesc (a b : RecRow) : Prop := b.recovery_amount ≤ a.recovery_amount

instance : DecidableRel rrDesc := fun a b =>
  inferInstanceAs (Decidable (b.recovery_amount ≤ a.recovery_amount))

/-- `visualization.calculate_drop_and_recovery`. -/
def calculate_drop_and_recovery (cols : List Month) (t : List DRow) : List RecRow :=
  List.insertionSort rrDesc (groupMaxRecovery cols (dropRecoveryRows cols t))

/-- `["rank_may", "rank_june", "rank_july", "rank_august"]`. -/
def cols4 : List Month := [Month.may, Month.june, Month.july, Month.august]

def c2rowMono : DRow :=
  { betting_house := "m", rank_may := 4, rank_june := 3, rank_july := 2, rank_august := 1 }

def c2rowSpecEx : DRow :=
  { betting_house := "e", rank_may := 5, rank_june := 8, rank_july := 3, rank_august := 3 }

/-- C2: house "m" improves its rank monotonically (4, 3, 2, 1) — its rank
number never increases between any two months, so no drop ever happens —
yet `calculate_drop_and_recovery` reports it with recovery magnitude 3,
because the code's `recovered` test (`rank_j < rank_i`) duplicates its
`dropped` test instead of requiring a drop before the recovery; on the
spec's example shape (5, 8, 3, 3) the reported magnitude is 5 as claimed. -/
theorem drop_recovery_code_bug :
    ((allPairs cols4).all
      (fun p => decide (c2rowMono.rankOfD p.2 ≤ c2rowMono.rankOfD p.1)) = true) ∧
    calculate_drop_and_recovery cols4 [c2rowMono] =
      [{ betting_house := "m", ranks := [4, 3, 2, 1], recovery_amount := 3 }] ∧
    calculate_drop_and_recovery cols4 [c2rowSpecEx] =
      [{ betting_house := "e", ranks := [5, 8, 3, 3], recovery_amount := 5 }] :=
  ⟨by decide, by decide, by decide⟩

/-- A float value as produced by pandas column arithmetic: a finite value
(kept exact as a rational), a signed infinity, or NaN. -/
inductive PFloat
  | val (q : Rat)
  | inf
  | neginf
  | nan
deriving DecidableEq

/-- Float subtraction. -/
def PFloat.sub : PFloat → PFloat → PFloat
  | PFloat.nan, _ => PFloat.nan
  | _, PFloat.nan => PFloat.nan
  | PFloat.val a, PFloat.val b => PFloat.val (a - b)
  | PFloat.inf, PFloat.inf => PFloat.nan
  | PFloat.inf, _ => PFloat.inf
  | _, PFloat.inf => PFloat.neginf
  | PFloat.neginf, _ => PFloat.neginf
  | PFloat.val _, PFloat.neginf => PFloat.inf

/-- Float division: a positive value divided by zero is `inf` (pandas emits
a warning but produces the value silently), `0 / 0` is NaN. -/
def PFloat.div : PFloat → PFloat → PFloat
  | PFloat.nan, _ => PFloat.nan
  | _, PFloat.nan => PFloat.nan
  | PFloat.val a, PFloat.val b =>
    if b = 0 then (if a = 0 then PFloat.nan else if 0 < a then PFloat.inf else PFloat.neginf)
    else PFloat.val (a / b)
  | PFloat.inf, PFloat.inf => PFloat.nan
  | PFloat.inf, PFloat.neginf => PFloat.nan
  | PFloat.neginf, PFloat.inf => PFloat.nan
  | PFloat.neginf, PFloat.neginf => PFloat.nan
  | PFloat.inf, PFloat.val b => if b < 0 then PFloat.neginf else PFloat.inf
  | PFloat.neginf, PFloat.val b => if b < 0 then PFloat.inf else PFloat.neginf
  | PFloat.val _, PFloat.inf => PFloat.val 0
  | PFloat.val _, PFloat.neginf => PFloat.val 0

/-- Float multiplication. -/
def PFloat.mul : PFloat → PFloat → PFloat
  | PFloat.nan, _ => PFloat.nan
  | _, PFloat.nan => PFloat.nan
  | PFloat.val a, PFloat.val b => PFloat.val (a * b)
  | PFloat.inf, PFloat.val b =>
    if b = 0 then PFloat.nan else if 0 < b then PFloat.inf else PFloat.neginf
  | PFloat.val a, PFloat.inf =>
    if a = 0 then PFloat.nan else if 0 < a then PFloat.inf else PFloat.neginf
  | PFloat.neginf, PFloat.val b =>
    if b = 0 then PFloat.nan else if 0 < b then PFloat.neginf else PFloat.inf
  | PFloat.val a, PFloat.neginf =>
    if a = 0 then PFloat.nan else if 0 < a then PFloat.neginf else PFloat.inf
  | PFloat.inf, PFloat.inf => PFloat.inf
  | PFloat.inf, PFloat.neginf => PFloat.neginf
  | PFloat.neginf, PFloat.inf => PFloat.neginf
  | PFloat.neginf, PFloat.neginf => PFloat.inf

/-- A numeric cell as a float (NaN for a missing value). -/
def toPF : Option Int → PFloat
  | none => PFloat.nan
  | some i => PFloat.val (i : Rat)

/-- A row of the table handled by `plot_popularity_growth` (April–August
columns, unfiltered: cells may be missing). -/
structure PGRow where
  betting_house : String
  april : Option Int
  may : Option Int
  june : Option Int
  july : Option Int
  august : Option Int
deriving DecidableEq

/-- A row of `df_growth` inside `plot_popularity_growth`. -/
structure PGOutRow where
  betting_house : String
  total_sum : Int
  growth_percentage : PFloat
deriving DecidableEq

/-- `total_sum` (pandas `sum` skips NaN) and
`growth_percentage = (august - april) / april * 100` for one row. -/
def pgCompute (r : PGRow) : PGOutRow :=
  { betting_house := r.betting_house
    total_sum := r.april.getD 0 + r.may.getD 0 + r.june.getD 0 + r.july.getD 0 + r.august.getD 0
    growth_percentage :=
      PFloat.mul (PFloat.div (PFloat.sub (toPF r.august) (toPF r.april)) (toPF r.april))
        (PFloat.val 100) }

/-- Sort key order for `sort_values(by="growth_percentage",
ascending=False)` with NaN placed last. -/
def pfBefore (x y : PFloat) : Bool :=
  match x, y with
  | PFloat.nan, PFloat.nan => true
  | PFloat.nan, _ => false
  | _, PFloat.nan => true
  | PFloat.inf, _ => true
  | _, PFloat.inf => false
  | PFloat.neginf, PFloat.neginf => true
  | PFloat.neginf, _ => false
  | _, PFloat.neginf => true
  | PFloat.val a, PFloat.val b => decide (b ≤ a)

/-- Row order by descending growth. -/
def pgRel (a b : PGOutRow) : Prop :=
  pfBefore a.growth_percentage b.growth_percentage = true

instance : DecidableRel pgRel := fun a b =>
  inferInstanceAs (Decidable (pfBefore a.growth_percentage b.growth_percentage = true))

/-- The data pipeline of `visualization.plot_popularity_growth` (the chart
rendering itself is presentation and out of scope): growth computation over
the unfiltered table, sorted by descending growth. -/
def plot_popularity_growth_data (t : List PGRow) : List PGOutRow :=
  List.insertionSort pgRel (t.map pgCompute)

def c3rowPlot : PGRow :=
  { betting_house := "Z", april := some 0, may := some 1, june := some 1
    july := some 1, august := some 50 }

def c3rowRaw : RawRow :=
  { betting_house := "Z", may := some 0, june := some 1, july := some 1, august := some 50 }

/-- C3: on a row with `april = 0` and `august = 50`,
`plot_popularity_growth` silently produces `inf` as the growth percentage
and keeps the row in its output (pandas float semantics) instead of raising
or excluding it, while `preprocess_dataframe` excludes a row whose start
month metric is `0` before computing growth, as the claim requires — the
two growth computations are inconsistent and the plotting path violates the
claim. -/
theorem growth_zero_start_behavior :
    (plot_popularity_growth_data [c3rowPlot]).map PGOutRow.growth_percentage = [PFloat.inf] ∧
    (plot_popularity_growth_data [c3rowPlot]).length = 1 ∧
    preprocess_dataframe [c3rowRaw] = [] := by
  refine ⟨?_, rfl, by decide⟩
  show [(pgCompute c3rowPlot).growth_percentage] = [PFloat.inf]
  simp only [pgCompute, c3rowPlot, toPF, PFloat.sub, PFloat.div, PFloat.mul]
  norm_num

/-- The error raised by Python when dividing by an integer zero
(`ZeroDivisionError`). -/
inductive PyError
  | zeroDivision
deriving DecidableEq

/-- A row of the copa-america results table. -/
structure MatchRow where
  home_team : String
  away_team : String
  home_score : Int
  away_score : Int
  tournament : String
  date : Nat
deriving DecidableEq

/-- The row mask selecting matches between the two given teams in either
venue order. -/
def isBetween (home_team away_team : String) (m : MatchRow) : Bool :=
  (decide (m.home_team = home_team) && decide (m.away_team = away_team)) ||
  (decide (m.home_team = away_team) && decide (m.away_team = home_team))

/-- `matches` of `calculate_match_outcomes`. -/
def matchesBetween (t : List MatchRow) (home_team away_team : String) : List MatchRow :=
  t.filter (isBetween home_team away_team)

/-- Sum of the three outcome counters. -/
def sumTriple (x : Nat × Nat × Nat) : Nat :=
  x.1 + x.2.1 + x.2.2

/-- One iteration of the `if/elif/else` chain of
`calculate_match_outcomes` over the counters (first-team wins, second-team
wins, draws). -/
def outcomeStep (home_team away_team : String) (acc : Nat × Nat × Nat) (m : MatchRow) :
    Nat × Nat × Nat :=
  if m.home_team = home_team ∧ m.away_score < m.home_score then (acc.1 + 1, acc.2.1, acc.2.2)
  else if m.away_team = home_team ∧ m.home_score < m.away_score then (acc.1 + 1, acc.2.1, acc.2.2)
  else if m.home_team = away_team ∧ m.away_score < m.home_score then (acc.1, acc.2.1 + 1, acc.2.2)
  else if m.away_team = away_team ∧ m.home_score < m.away_score then (acc.1, acc.2.1 + 1, acc.2.2)
  else (acc.1, acc.2.1, acc.2.2 + 1)

/-- `{k: v / total_matches for k, v in outcomes.items()}` packaged as a
result table; `total_matches == 0` raises `ZeroDivisionError`. -/
def distribution3 (l1 l2 l3 : String) (c : Nat × Nat × Nat) :
    Except PyError (List (String × Rat)) :=
  if c.1 + c.2.1 + c.2.2 = 0 then Except.error PyError.zeroDivision
  else Except.ok
    [(l1, (c.1 : Rat) / ((c.1 + c.2.1 + c.2.2 : Nat) : Rat)),
     (l2, (c.2.1 : Rat) / ((c.1 + c.2.1 + c.2.2 : Nat) : Rat)),
     (l3, (c.2.2 : Rat) / ((c.1 + c.2.1 + c.2.2 : Nat) : Rat))]

/-- `utils.calculate_match_outcomes` (copa-america). -/
def calculate_match_outcomes (t : List MatchRow) (home_team away_team : String) :
    Except PyError (List (String × Rat)) :=
  distribution3 "Brasil" "Colombia" "Empate"
    ((matchesBetween t home_team away_team).foldl (outcomeStep home_team away_team) (0, 0, 0))

/-- `(df["home_team"] == team) | (df["away_team"] == team)`. -/
def involvesTeam (team : String) (m : MatchRow) : Bool :=
  decide (m.home_team = team) || decide (m.away_team = team)

/-- Python truthiness of the `tournament` argument (`None` and `""` are
falsy). -/
def tournamentTruthy (tr : Option String) : Bool :=
  decide (tr.getD "" ≠ "")

/-- The match selection of `calculate_team_performance` (team filter, plus
tournament filter when the argument is truthy). -/
def teamMatches (t : List MatchRow) (team : String) (tr : Option String) : List MatchRow :=
  if tournamentTruthy tr then
    t.filter (fun m => involvesTeam team m && decide (m.tournament = tr.getD ""))
  else
    t.filter (involvesTeam team)

/-- Descending date order for
`sort_values(by="date", ascending=False)`. -/
def dateDesc (a b : MatchRow) : Prop := b.date ≤ a.date

instance : DecidableRel dateDesc := fun a b =>
  inferInstanceAs (Decidable (b.date ≤ a.date))

/-- Python truthiness of the `last_n_games` argument (`None` and `0` are
falsy). -/
def lastNTruthy (ln : Option Nat) : Bool :=
  decide (ln.getD 0 ≠ 0)

/-- `matches.sort_values(by="date", ascending=False).head(last_n_games)`,
applied only when `last_n_games` is truthy. -/
def selectLastN (ln : Option Nat) (ms : List MatchRow) : List MatchRow :=
  if lastNTruthy ln then (List.insertionSort dateDesc ms).take (ln.getD 0) else ms

/-- One iteration of the win/loss/draw chain of
`calculate_team_performance`; a match not involving the team is not
counted. -/
def perfStep (team : String) (acc : Nat × Nat × Nat) (m : MatchRow) : Nat × Nat × Nat :=
  if m.home_team = team then
    (if m.away_score < m.home_score then (acc.1 + 1, acc.2.1, acc.2.2)
     else if m.home_score < m.away_score then (acc.1, acc.2.1 + 1, acc.2.2)
     else (acc.1, acc.2.1, acc.2.2 + 1))
  else if m.away_team = team then
    (if m.home_score < m.away_score then (acc.1 + 1, acc.2.1, acc.2.2)
     else if m.away_score < m.home_score then (acc.1, acc.2.1 + 1, acc.2.2)
     else (acc.1, acc.2.1, acc.2.2 + 1))
  else acc

/-- `utils.calculate_team_performance` (copa-america). -/
def calculate_team_performance (t : List MatchRow) (team : String)
    (tr : Option String) (ln : Option Nat) : Except PyError (List (String × Rat)) :=
  distribution3 "Vitórias" "Derrotas" "Empates"
    ((selectLastN ln (teamMatches t team tr)).foldl (perfStep team) (0, 0, 0))

theorem outcomeStep_sum (home_team away_team : String) (acc : Nat × Nat × Nat) (m : MatchRow) :
    sumTriple (outcomeStep home_team away_team acc m) = sumTriple acc + 1 := by
  unfold outcomeStep sumTriple
  split_ifs <;> dsimp <;> omega

theorem foldl_outcomeStep_sum (home_team away_team : String) (ms : List MatchRow) :
    ∀ acc : Nat × Nat × Nat,
      sumTriple (ms.foldl (outcomeStep home_team away_team) acc) = sumTriple acc + ms.length := by
  induction ms with
  | nil => intro acc; simp
  | cons m rest ih =>
    intro acc
    rw [List.foldl_cons, ih, outcomeStep_sum]
    simp only [List.length_cons]
    omega

theorem perfStep_sum (team : String) (acc : Nat × Nat × Nat) (m : MatchRow)
    (hm : m.home_team = team ∨ m.away_team = team) :
    sumTriple (perfStep team acc m) = sumTriple acc + 1 := by
  unfold perfStep sumTriple
  split_ifs with h1 h2 h3 h4 h5 h6
  all_goals try (dsimp; omega)
  rcases hm with hm | hm
  · exact absurd hm h1
  · exact absurd hm h4

theorem foldl_perfStep_sum (team : String) (ms : List MatchRow)
    (hms : ∀ m ∈ ms, m.home_team = team ∨ m.away_team = team) :
    ∀ acc : Nat × Nat × Nat,
      sumTriple (ms.foldl (perfStep team) acc) = sumTriple acc + ms.length := by
  induction ms with
  | nil => intro acc; simp
  | cons m rest ih =>
    intro acc
    rw [List.foldl_cons, ih (fun x hx => hms x (List.mem_cons_of_mem m hx)),
      perfStep_sum team acc m (hms m (List.mem_cons_self m rest))]
    simp only [List.length_cons]
    omega

theorem teamMatches_involves (t : List MatchRow) (team : String) (tr : Option String) :
    ∀ m ∈ teamMatches t team tr, m.home_team = team ∨ m.away_team = team := by
  intro m hm
  unfold teamMatches at hm
  split_ifs at hm
  · have h2 := (List.mem_filter.mp hm).2
    simp only [involvesTeam, Bool.and_eq_true, Bool.or_eq_true, decide_eq_true_eq] at h2
    exact h2.1
  · have h2 := (List.mem_filter.mp hm).2
    simp only [involvesTeam, Bool.or_eq_true, decide_eq_true_eq] at h2
    exact h2

theorem mem_selectLastN (ln : Option Nat) (ms : List MatchRow) (x : MatchRow) :
    x ∈ selectLastN ln ms → x ∈ ms := by
  intro hx
  unfold selectLastN at hx
  split_ifs at hx
  · exact (List.perm_insertionSort dateDesc ms).subset (List.mem_of_mem_take hx)
  · exact hx

theorem selectLastN_ne_nil (ln : Option Nat) (ms : List MatchRow) (h : ms ≠ []) :
    selectLastN ln ms ≠ [] := by
  unfold selectLastN
  split_ifs with ht
  · have hk : ln.getD 0 ≠ 0 := by simpa [lastNTruthy] using ht
    have hlen : (List.insertionSort dateDesc ms).length = ms.length :=
      (List.perm_insertionSort dateDesc ms).length_eq
    intro hnil
    have hlen2 := congrArg List.length hnil
    rw [List.length_take, hlen] at hlen2
    have hpos : 0 < ms.length := List.length_pos.mpr h
    simp only [List.length_nil] at hlen2
    omega
  · exact h

/-- C9: both distribution computations divide by the count of selected
matches with no emptiness guard: when the selection is empty the result is
a `ZeroDivisionError`, never an empty or zero distribution; when at least
one row is selected the division succeeds. -/
theorem division_guard_spec (t : List MatchRow) (home_team away_team team : String)
    (tr : Option String) (ln : Option Nat) :
    (matchesBetween t home_team away_team = [] →
      calculate_match_outcomes t home_team away_team = Except.error PyError.zeroDivision) ∧
    (matchesBetween t home_team away_team ≠ [] →
      ∃ out, calculate_match_outcomes t home_team away_team = Except.ok out) ∧
    (teamMatches t team tr = [] →
      calculate_team_performance t team tr ln = Except.error PyError.zeroDivision) ∧
    (teamMatches t team tr ≠ [] →
      ∃ out, calculate_team_performance t team tr ln = Except.ok out) := by
  refine ⟨?_, ?_, ?_, ?_⟩
  · intro hms
    unfold calculate_match_outcomes
    rw [hms]
    rfl
  · intro hms
    unfold calculate_match_outcomes distribution3
    have hsum := foldl_outcomeStep_sum home_team away_team
      (matchesBetween t home_team away_team) (0, 0, 0)
    have hne : sumTriple ((matchesBetween t home_team away_team).foldl
        (outcomeStep home_team away_team) (0, 0, 0)) ≠ 0 := by
      have h00 : sumTriple (0, 0, 0) = 0 := rfl
      rw [hsum, h00]
      have := List.length_pos.mpr hms
      omega
    rw [if_neg (by simpa [sumTriple] using hne)]
    exact ⟨_, rfl⟩
  · intro hms
    unfold calculate_team_performance
    rw [hms]
    have : selectLastN ln ([] : List MatchRow) = [] := by
      unfold selectLastN
      split_ifs <;> simp
    rw [this]
    rfl
  · intro hms
    unfold calculate_team_performance distribution3
    have hsel := selectLastN_ne_nil ln _ hms
    have hinv : ∀ m ∈ selectLastN ln (teamMatches t team tr),
        m.home_team = team ∨ m.away_team = team :=
      fun m hm => teamMatches_involves t team tr m (mem_selectLastN ln _ m hm)
    have hsum := foldl_perfStep_sum team _ hinv (0, 0, 0)
    have hne : sumTriple ((selectLastN ln (teamMatches t team tr)).foldl
        (perfStep team) (0, 0, 0)) ≠ 0 := by
      have h00 : sumTriple (0, 0, 0) = 0 := rfl
      rw [hsum, h00]
      have := List.length_pos.mpr hsel
      omega
    rw [if_neg (by simpa [sumTriple] using hne)]
    exact ⟨_, rfl⟩

def c9match : MatchRow :=
  { home_team := "Brazil", away_team := "Peru", home_score := 1, away_score := 0
    tournament := "Copa América", date := 1 }

/-- Witness for `division_guard_spec`: a table with one Brazil–Peru match
has no Brazil–Colombia row, so `calculate_match_outcomes` raises. -/
theorem division_guard_spec_witness :
    calculate_match_outcomes [c9match] "Brazil" "Colombia" =
      Except.error PyError.zeroDivision :=
  (division_guard_spec [c9match] "Brazil" "Colombia" "X" none none).1 (by decide)

/-- C10: with at least one selected match, every selected match falls in
exactly one outcome category, so the three counters sum to the number of
selected matches and the returned `Percentual` column sums to exactly 1. -/
theorem match_outcomes_distribution (t : List MatchRow) (home_team away_team : String)
    (hne : matchesBetween t home_team away_team ≠ []) :
    ∃ out, calculate_match_outcomes t home_team away_team = Except.ok out ∧
      out.length = 3 ∧
      (out.map Prod.snd).sum = 1 ∧
      sumTriple ((matchesBetween t home_team away_team).foldl
        (outcomeStep home_team away_team) (0, 0, 0)) =
        (matchesBetween t home_team away_team).length := by
  have hsum := foldl_outcomeStep_sum home_team away_team
    (matchesBetween t home_team away_team) (0, 0, 0)
  have hlenpos := List.length_pos.mpr hne
  have hcount : sumTriple ((matchesBetween t home_team away_team).foldl
      (outcomeStep home_team away_team) (0, 0, 0)) =
      (matchesBetween t home_team away_team).length := by
    have h00 : sumTriple (0, 0, 0) = 0 := rfl
    rw [hsum, h00]
    omega
  set c := (matchesBetween t home_team away_team).foldl
    (outcomeStep home_team away_team) (0, 0, 0) with hc
  have hT : c.1 + c.2.1 + c.2.2 ≠ 0 := by
    have : sumTriple c ≠ 0 := by
      rw [hcount]
      omega
    simpa [sumTriple] using this
  have hTQ : ((c.1 + c.2.1 + c.2.2 : Nat) : Rat) ≠ 0 := Nat.cast_ne_zero.mpr hT
  refine ⟨[("Brasil", (c.1 : Rat) / ((c.1 + c.2.1 + c.2.2 : Nat) : Rat)),
      ("Colombia", (c.2.1 : Rat) / ((c.1 + c.2.1 + c.2.2 : Nat) : Rat)),
      ("Empate", (c.2.2 : Rat) / ((c.1 + c.2.1 + c.2.2 : Nat) : Rat))], ?_, rfl, ?_, hcount⟩
  · unfold calculate_match_outcomes distribution3
    rw [← hc, if_neg hT]
  · simp only [List.map_cons, List.map_nil, List.sum_cons, List.sum_nil]
    rw [add_zero]
    have hall : (c.1 : Rat) / ((c.1 + c.2.1 + c.2.2 : Nat) : Rat) +
        ((c.2.1 : Rat) / ((c.1 + c.2.1 + c.2.2 : Nat) : Rat) +
          (c.2.2 : Rat) / ((c.1 + c.2.1 + c.2.2 : Nat) : Rat)) =
        ((c.1 + c.2.1 + c.2.2 : Nat) : Rat) / ((c.1 + c.2.1 + c.2.2 : Nat) : Rat) := by
      push_cast
      ring
    rw [hall, div_self hTQ]

def c10matchA : MatchRow :=
  { home_team := "Brazil", away_team := "Colombia", home_score := 2, away_score := 1
    tournament := "Copa América", date := 1 }

def c10matchB : MatchRow :=
  { home_team := "Colombia", away_team := "Brazil", home_score := 0, away_score := 0
    tournament := "Copa América", date := 2 }

/-- Witness for `match_outcomes_distribution`: on a two-match table the
distribution exists, has three categories, and sums to 1. -/
theorem match_outcomes_distribution_witness :
    ∃ out, calculate_match_outcomes [c10matchA, c10matchB] "Brazil" "Colombia" =
        Except.ok out ∧
      out.length = 3 ∧
      (out.map Prod.snd).sum = 1 ∧
      sumTriple ((matchesBetween [c10matchA, c10matchB] "Brazil" "Colombia").foldl
        (outcomeStep "Brazil" "Colombia") (0, 0, 0)) =
        (matchesBetween [c10matchA, c10matchB] "Brazil" "Colombia").length :=
  match_outcomes_distribution [c10matchA, c10matchB] "Brazil" "Colombia" (by decide)

end AltsDigital
